import Mathlib

/-!
Shallow embedding of the reset-scheduling core of `src/monitor.ts`
(codex_ping VSCode extension).

JavaScript numbers are modelled by `JsNum`: exact rationals plus the
special values `NaN`, `Infinity` and `-Infinity`.  Times are rationals
(milliseconds).  The timer environment is modelled explicitly: a list of
live (scheduled, unfired) timers together with a fresh-id counter, so
that `setTimeout` / `clearTimeout` and the "at most one live timer"
invariant can be stated.  Asynchronous callbacks are split at their
`await` points into a synchronous part and a resolution part.
-/

/-- JavaScript number: NaN, +Infinity, -Infinity, or a finite value
(modelled as an exact rational). -/
inductive JsNum where
  | nan : JsNum
  | inf : JsNum
  | ninf : JsNum
  | fin : ℚ → JsNum
deriving DecidableEq, Repr

/-- JS truthiness of a number: `NaN` and `0` are falsy, everything else
(including the infinities) is truthy. -/
def jsTruthy : JsNum → Bool
  | JsNum.nan => false
  | JsNum.fin q => decide (q ≠ 0)
  | _ => true

/-- JS negation of a number. -/
def jsNeg : JsNum → JsNum
  | JsNum.nan => JsNum.nan
  | JsNum.inf => JsNum.ninf
  | JsNum.ninf => JsNum.inf
  | JsNum.fin q => JsNum.fin (-q)

/-- JS addition. -/
def jsAdd : JsNum → JsNum → JsNum
  | JsNum.nan, _ => JsNum.nan
  | _, JsNum.nan => JsNum.nan
  | JsNum.inf, JsNum.ninf => JsNum.nan
  | JsNum.ninf, JsNum.inf => JsNum.nan
  | JsNum.inf, _ => JsNum.inf
  | _, JsNum.inf => JsNum.inf
  | JsNum.ninf, _ => JsNum.ninf
  | _, JsNum.ninf => JsNum.ninf
  | JsNum.fin a, JsNum.fin b => JsNum.fin (a + b)

/-- JS subtraction. -/
def jsSub (a b : JsNum) : JsNum := jsAdd a (jsNeg b)

/-- JS multiplication. -/
def jsMul : JsNum → JsNum → JsNum
  | JsNum.nan, _ => JsNum.nan
  | _, JsNum.nan => JsNum.nan
  | JsNum.inf, JsNum.inf => JsNum.inf
  | JsNum.inf, JsNum.ninf => JsNum.ninf
  | JsNum.ninf, JsNum.inf => JsNum.ninf
  | JsNum.ninf, JsNum.ninf => JsNum.inf
  | JsNum.inf, JsNum.fin q => if 0 < q then JsNum.inf else if q < 0 then JsNum.ninf else JsNum.nan
  | JsNum.fin q, JsNum.inf => if 0 < q then JsNum.inf else if q < 0 then JsNum.ninf else JsNum.nan
  | JsNum.ninf, JsNum.fin q => if 0 < q then JsNum.ninf else if q < 0 then JsNum.inf else JsNum.nan
  | JsNum.fin q, JsNum.ninf => if 0 < q then JsNum.ninf else if q < 0 then JsNum.inf else JsNum.nan
  | JsNum.fin a, JsNum.fin b => JsNum.fin (a * b)

/-- `Math.max(0, x)`: NaN propagates, otherwise clamp below at 0
(written with an explicit test so that it evaluates by reduction). -/
def jsMax0 : JsNum → JsNum
  | JsNum.nan => JsNum.nan
  | JsNum.inf => JsNum.inf
  | JsNum.ninf => JsNum.fin 0
  | JsNum.fin q => JsNum.fin (if q ≤ 0 then 0 else q)

/-- JS comparison `x > 0` (false for NaN). -/
def jsGtZero : JsNum → Bool
  | JsNum.nan => false
  | JsNum.inf => true
  | JsNum.ninf => false
  | JsNum.fin q => decide (0 < q)

/-- JS strict equality `===` on numbers: `NaN === NaN` is false. -/
def jsStrictEq : JsNum → JsNum → Bool
  | JsNum.nan, _ => false
  | _, JsNum.nan => false
  | JsNum.inf, JsNum.inf => true
  | JsNum.ninf, JsNum.ninf => true
  | JsNum.fin a, JsNum.fin b => decide (a = b)
  | _, _ => false

/-- JS strict equality on `number | null` values. -/
def jsStrictEqOpt : Option JsNum → Option JsNum → Bool
  | none, none => true
  | some a, some b => jsStrictEq a b
  | _, _ => false

/-! ### JS `parseFloat` -/

/-- Decimal digit test. -/
def isDig (c : Char) : Bool := ('0' ≤ c) && (c ≤ '9')

/-- Whitespace skipped by `parseFloat` before the number. -/
def isWsChar (c : Char) : Bool :=
  c == ' ' || c == '\t' || c == '\n' || c == '\r' ||
  c.toNat == 11 || c.toNat == 12 || c.toNat == 160 || c.toNat == 0xFEFF

/-- Value of a decimal digit character. -/
def digVal (c : Char) : ℕ := c.toNat - '0'.toNat

/-- Natural number denoted by a list of decimal digits. -/
def natOfDigits (l : List Char) : ℕ := l.foldl (fun a c => a * 10 + digVal c) 0

/-- Fractional value denoted by the digits after the decimal point. -/
def fracOfDigits (l : List Char) : ℚ := (natOfDigits l : ℚ) / ((10 : ℚ) ^ l.length)

/-- Exponent digits after an optional sign; an `e` with no digits
contributes no exponent (longest-valid-prefix rule). -/
def expTail (cs : List Char) : ℤ :=
  match cs with
  | '-' :: rest =>
      if (rest.takeWhile isDig).isEmpty then 0 else -(natOfDigits (rest.takeWhile isDig) : ℤ)
  | '+' :: rest =>
      if (rest.takeWhile isDig).isEmpty then 0 else (natOfDigits (rest.takeWhile isDig) : ℤ)
  | _ =>
      if (cs.takeWhile isDig).isEmpty then 0 else (natOfDigits (cs.takeWhile isDig) : ℤ)

/-- Exponent part (`e`/`E` followed by signed digits), 0 if absent or invalid. -/
def expOf (cs : List Char) : ℤ :=
  match cs with
  | 'e' :: rest => expTail rest
  | 'E' :: rest => expTail rest
  | _ => 0

/-- The body of `parseFloat` after whitespace and sign have been consumed. -/
def parseSignedTail (neg : Bool) (cs : List Char) : JsNum :=
  if cs.take 8 = "Infinity".data then (if neg then JsNum.ninf else JsNum.inf)
  else
    let ip := cs.takeWhile isDig
    let r1 := cs.dropWhile isDig
    let fp := match r1 with
      | '.' :: r => r.takeWhile isDig
      | _ => []
    let r2 := match r1 with
      | '.' :: r => r.dropWhile isDig
      | _ => r1
    if ip.isEmpty && fp.isEmpty then JsNum.nan
    else
      let e := expOf r2
      let m : ℚ := (natOfDigits ip : ℚ) + fracOfDigits fp
      let v : ℚ := m * (10 : ℚ) ^ e
      JsNum.fin (if neg then -v else v)

/-- JS `parseFloat`: longest valid numeric prefix, `NaN` if none. -/
def parseFloat (s : String) : JsNum :=
  match s.data.dropWhile isWsChar with
  | '-' :: rest => parseSignedTail true rest
  | '+' :: rest => parseSignedTail false rest
  | cs => parseSignedTail false cs

/-! ### LimitReader: `parseHeader` and `extractLimits` -/

/-- JS truthiness of a string: only the empty string is falsy. -/
def strTruthy (s : String) : Bool := !(s == "")

/-- JS `a || b` on `string | undefined` values. -/
def jsOrStr (a b : Option String) : Option String :=
  match a with
  | some s => if strTruthy s then some s else b
  | none => b

/-- Header map: lookup by exact name, `none` when the header is absent. -/
def Headers : Type := String → Option String

/-- `parseHeader(headers, name)` from `monitor.ts`:
`const v = headers[name] || headers[name.toLowerCase()]`, `null` if `v`
is falsy, otherwise `parseFloat(v)` with `NaN` mapped to `null`. -/
def parseHeader (headers : Headers) (name : String) : Option JsNum :=
  match jsOrStr (headers name) (headers name.toLower) with
  | none => none
  | some s =>
      if strTruthy s = false then none
      else
        match parseFloat s with
        | JsNum.nan => none
        | n => some n

/-- Header name for the primary window's used-percent field. -/
def primaryUsedName : String := "x-codex-primary-used-percent"

/-- Header name for the primary window's reset-after field. -/
def primaryResetName : String := "x-codex-primary-reset-after-seconds"

/-- Header name for the secondary window's used-percent field. -/
def secondaryUsedName : String := "x-codex-secondary-used-percent"

/-- Header name for the secondary window's reset-after field. -/
def secondaryResetName : String := "x-codex-secondary-reset-after-seconds"

/-- `RateLimits` window entry from `monitor.ts`:
`{ used_percent: number; resets_in_seconds?: number }`. -/
structure RateWindowInfo where
  used_percent : JsNum
  resets_in_seconds : Option JsNum
deriving DecidableEq, Repr

/-- `RateLimits` from `monitor.ts`: both windows optional. -/
structure RateLimits where
  primary : Option RateWindowInfo
  secondary : Option RateWindowInfo
deriving DecidableEq, Repr

/-- JS `x || undefined` on a parsed number: drops `null` and falsy
numbers (in particular the value `0`). -/
def truthyOrUndef (x : Option JsNum) : Option JsNum :=
  match x with
  | some v => if jsTruthy v then some v else none
  | none => none

/-- `extractLimits(headers)` from `monitor.ts`. -/
def extractLimits (headers : Headers) : Option RateLimits :=
  let p := parseHeader headers primaryUsedName
  let lp : Option RateWindowInfo :=
    match p with
    | some u => some ⟨u, truthyOrUndef (parseHeader headers primaryResetName)⟩
    | none => none
  let s := parseHeader headers secondaryUsedName
  let ls : Option RateWindowInfo :=
    match s with
    | some u => some ⟨u, truthyOrUndef (parseHeader headers secondaryResetName)⟩
    | none => none
  if lp.isSome || ls.isSome then some ⟨lp, ls⟩ else none

/-! ### Scheduler state -/

/-- The two rate-limit windows (`'Primary'` / `'Secondary'` in the source). -/
inductive Window where
  | primary : Window
  | secondary : Window
deriving DecidableEq, Repr

/-- A live (scheduled, not yet fired) timer in the environment:
its `setTimeout` handle, the window whose callback it carries, the JS
delay it was created with, and the instant it was armed. -/
structure LiveTimer where
  id : ℕ
  win : Window
  delay : JsNum
  armedAt : ℚ
deriving DecidableEq, Repr

/-- The module-level mutable state of `monitor.ts` together with the
timer environment. -/
structure MState where
  primaryResetTime : Option JsNum
  secondaryResetTime : Option JsNum
  primaryTimer : Option ℕ
  secondaryTimer : Option ℕ
  lastPingTime : Option ℚ
  pingCount : ℕ
  lastLimits : Option RateLimits
  primaryEnabled : Bool
  secondaryEnabled : Bool
  live : List LiveTimer
  nextId : ℕ
deriving DecidableEq, Repr

/-- Initial state: no reset known, no timers, both windows enabled. -/
def initState : MState :=
  ⟨none, none, none, none, none, 0, none, true, true, [], 0⟩

/-- `clearTimeout h`: remove the timer with handle `h` from the live set. -/
def cancelHandle (h : ℕ) (l : List LiveTimer) : List LiveTimer :=
  l.filter (fun t => t.id != h)

/-- `if (timer) clearTimeout(timer)` on an optional handle. -/
def clearOpt (h : Option ℕ) (l : List LiveTimer) : List LiveTimer :=
  match h with
  | some hh => cancelHandle hh l
  | none => l

/-- The `enabled` flag of a window. -/
def getEnabled (st : MState) : Window → Bool
  | Window.primary => st.primaryEnabled
  | Window.secondary => st.secondaryEnabled

/-- The stored timer handle of a window. -/
def getHandle (st : MState) : Window → Option ℕ
  | Window.primary => st.primaryTimer
  | Window.secondary => st.secondaryTimer

/-- Store a timer handle for a window. -/
def setHandle (w : Window) (h : Option ℕ) (st : MState) : MState :=
  match w with
  | Window.primary => { st with primaryTimer := h }
  | Window.secondary => { st with secondaryTimer := h }

/-- `schedulePing(resetTime, type)` from `monitor.ts`.  `now` is
`Date.now()` at call time and `auth` is whether `loadAuth()` succeeds.
When the clamped delay is positive a fresh timer is armed and its
handle stored; otherwise (with credentials) the firing handler's
synchronous part runs immediately: `pingCount` is incremented and
`lastPingTime` set, and the network resolution is left to a later
`immediateFinish` step. -/
def schedulePing (resetTime : Option JsNum) (w : Window) (now : ℚ) (auth : Bool)
    (st : MState) : MState :=
  match resetTime with
  | none => st
  | some v =>
      if jsTruthy v = false then st
      else if getEnabled st w = false then st
      else
        let delay := jsMax0 (jsSub v (JsNum.fin now))
        if jsGtZero delay then
          setHandle w (some st.nextId)
            { st with live := st.live ++ [⟨st.nextId, w, delay, now⟩], nextId := st.nextId + 1 }
        else
          if auth then { st with pingCount := st.pingCount + 1, lastPingTime := some now }
          else st

/-- The per-window candidate reset instant computed in the reconcile
blocks: `limits.w?.resets_in_seconds ? now + resets_in_seconds * 1000 : null`.
Note the JS truthiness test: a present but zero `resets_in_seconds`
yields `null`. -/
def candOf (wi : Option RateWindowInfo) (now : ℚ) : Option JsNum :=
  match wi with
  | some info =>
      match info.resets_in_seconds with
      | some r =>
          if jsTruthy r then some (jsAdd (JsNum.fin now) (jsMul r (JsNum.fin 1000)))
          else none
      | none => none
  | none => none

/-- The primary-window half of the reconcile block:
`if (newPrimaryReset !== primaryResetTime) { if (primaryTimer)
clearTimeout(primaryTimer); primaryResetTime = newPrimaryReset;
if (primaryEnabled) schedulePing(newPrimaryReset, 'Primary'); }`. -/
def reconcilePrimary (c : Option JsNum) (now : ℚ) (auth : Bool) (st : MState) : MState :=
  if jsStrictEqOpt c st.primaryResetTime = true then st
  else
    let stB := { st with live := clearOpt st.primaryTimer st.live, primaryResetTime := c }
    if stB.primaryEnabled then schedulePing c Window.primary now auth stB else stB

/-- The secondary-window half of the reconcile block (mirror image). -/
def reconcileSecondary (c : Option JsNum) (now : ℚ) (auth : Bool) (st : MState) : MState :=
  if jsStrictEqOpt c st.secondaryResetTime = true then st
  else
    let stB := { st with live := clearOpt st.secondaryTimer st.live, secondaryResetTime := c }
    if stB.secondaryEnabled then schedulePing c Window.secondary now auth stB else stB

/-- The reconcile block shared (verbatim, three times) by `checkLimits`
and both firing callbacks in `monitor.ts`: store the snapshot in
`lastLimits`, compute both candidates from `now`, then run the
per-window blocks in order. -/
def applyLimits (limits : RateLimits) (now : ℚ) (auth : Bool) (st : MState) : MState :=
  reconcileSecondary (candOf limits.secondary now) now auth
    (reconcilePrimary (candOf limits.primary now) now auth { st with lastLimits := some limits })

/-- `checkLimits()` from `monitor.ts` (the periodic poll): `auth` is the
result of `loadAuth()` and `res` the snapshot produced by
`pingCodex` (`none` on transport failure or unparseable headers). -/
def checkLimits (auth : Bool) (res : Option RateLimits) (now : ℚ) (st : MState) : MState :=
  if auth = false then st
  else
    match res with
    | none => st
    | some limits => applyLimits limits now auth st

/-- Environment step: a scheduled timer elapses and is removed from the
live set (its callback then runs). -/
def elapse (tid : ℕ) (st : MState) : MState :=
  { st with live := cancelHandle tid st.live }

/-- Synchronous prefix of the `setTimeout` firing callback, up to the
`await pingCodex(auth)`: with credentials it increments `pingCount` and
sets `lastPingTime`; without credentials the whole callback runs
synchronously and only nulls the window's stored handle. -/
def timerCallbackSync (w : Window) (now : ℚ) (auth : Bool) (st : MState) : MState :=
  if auth then { st with pingCount := st.pingCount + 1, lastPingTime := some now }
  else setHandle w none st

/-- Remainder of the `setTimeout` firing callback after `pingCodex`
resolves (credentials were present): reconcile on a snapshot, then the
trailing `if (type === ...) timer = null` nulls the stored handle. -/
def timerCallbackFinish (w : Window) (res : Option RateLimits) (now : ℚ) (auth : Bool)
    (st : MState) : MState :=
  let st1 :=
    match res with
    | some limits => applyLimits limits now auth st
    | none => st
  setHandle w none st1

/-- Resolution of the immediate-fire `pingCodex(auth).then(...)`
continuation: reconcile on a snapshot; there is no trailing handle
reset in this branch. -/
def immediateFinish (res : Option RateLimits) (now : ℚ) (auth : Bool) (st : MState) : MState :=
  match res with
  | some limits => applyLimits limits now auth st
  | none => st

/-- The webview toggle handler from `createInfoPanel` in `monitor.ts`
(`togglePrimary` / `toggleSecondary`): set the flag; on disable clear
and null the stored handle if present; on enable re-arm from the stored
reset time when that is truthy. -/
def setEnabledOp (w : Window) (flag : Bool) (now : ℚ) (auth : Bool) (st : MState) : MState :=
  match w with
  | Window.primary =>
      let st1 := { st with primaryEnabled := flag }
      if flag = false then
        match st1.primaryTimer with
        | some h => { st1 with live := cancelHandle h st1.live, primaryTimer := none }
        | none => st1
      else
        match st1.primaryResetTime with
        | some v =>
            if jsTruthy v then schedulePing (some v) Window.primary now auth st1 else st1
        | none => st1
  | Window.secondary =>
      let st1 := { st with secondaryEnabled := flag }
      if flag = false then
        match st1.secondaryTimer with
        | some h => { st1 with live := cancelHandle h st1.live, secondaryTimer := none }
        | none => st1
      else
        match st1.secondaryResetTime with
        | some v =>
            if jsTruthy v then schedulePing (some v) Window.secondary now auth st1 else st1
        | none => st1

/-- One observable operation on the scheduler state. -/
inductive OpStep where
  | poll : Bool → Option RateLimits → ℚ → OpStep
  | fireElapse : ℕ → OpStep
  | fireSync : Window → ℚ → Bool → OpStep
  | fireRes : Window → Option RateLimits → ℚ → Bool → OpStep
  | thenRes : Option RateLimits → ℚ → Bool → OpStep
  | toggle : Window → Bool → ℚ → Bool → OpStep

/-- Apply one operation to the state. -/
def stepApply : OpStep → MState → MState
  | OpStep.poll auth res now, st => checkLimits auth res now st
  | OpStep.fireElapse tid, st => elapse tid st
  | OpStep.fireSync w now auth, st => timerCallbackSync w now auth st
  | OpStep.fireRes w res now auth, st => timerCallbackFinish w res now auth st
  | OpStep.thenRes res now auth, st => immediateFinish res now auth st
  | OpStep.toggle w flag now auth, st => setEnabledOp w flag now auth st

/-! ### Helper lemmas -/

theorem setHandle_lastLimits (w : Window) (h : Option ℕ) (st : MState) :
    (setHandle w h st).lastLimits = st.lastLimits := by
  cases w <;> rfl

theorem schedulePing_lastLimits (r : Option JsNum) (w : Window) (now : ℚ) (auth : Bool)
    (st : MState) : (schedulePing r w now auth st).lastLimits = st.lastLimits := by
  cases r with
  | none => rfl
  | some v =>
      simp only [schedulePing]
      split_ifs <;> simp [setHandle_lastLimits]

theorem reconcilePrimary_lastLimits (c : Option JsNum) (now : ℚ) (auth : Bool) (st : MState) :
    (reconcilePrimary c now auth st).lastLimits = st.lastLimits := by
  simp only [reconcilePrimary]
  split_ifs <;> simp [schedulePing_lastLimits]

theorem reconcileSecondary_lastLimits (c : Option JsNum) (now : ℚ) (auth : Bool) (st : MState) :
    (reconcileSecondary c now auth st).lastLimits = st.lastLimits := by
  simp only [reconcileSecondary]
  split_ifs <;> simp [schedulePing_lastLimits]

theorem applyLimits_lastLimits (L : RateLimits) (now : ℚ) (auth : Bool) (st : MState) :
    (applyLimits L now auth st).lastLimits = some L := by
  simp [applyLimits, reconcilePrimary_lastLimits, reconcileSecondary_lastLimits]

/-! ### Concrete inputs for counterexamples and witnesses -/

/-- Headers whose primary used-percent is `Infinity` and whose primary
reset-after value is `0`. -/
def hdrC4 : Headers := fun n =>
  if n = primaryUsedName then some ("Infinity")
  else if n = primaryResetName then some ("0")
  else none

/-- Headers whose primary used-percent is `150`. -/
def hdrC9 : Headers := fun n =>
  if n = primaryUsedName then some ("150") else none

/-- A state with a pending primary reset and a live primary timer. -/
def stC1cex : MState :=
  { initState with
    primaryResetTime := some (JsNum.fin 300000)
    primaryTimer := some 0
    live := [⟨0, Window.primary, JsNum.fin 300000, 0⟩]
    nextId := 1 }

/-- A snapshot whose primary window is present without `resets_in_seconds`. -/
def LC1cex : RateLimits := ⟨some ⟨JsNum.fin 12, none⟩, none⟩

/-- A snapshot whose primary window reports a negative `resets_in_seconds`. -/
def LC3cex : RateLimits := ⟨some ⟨JsNum.fin 10, some (JsNum.fin (-5))⟩, none⟩

/-- First snapshot of the duplicate-timer scenario: reset in 300 s. -/
def dupL1 : RateLimits := ⟨some ⟨JsNum.fin 10, some (JsNum.fin 300)⟩, none⟩

/-- Second snapshot of the duplicate-timer scenario. -/
def dupL2 : RateLimits := ⟨some ⟨JsNum.fin 5, some (JsNum.fin 300)⟩, none⟩

/-- Third snapshot of the duplicate-timer scenario. -/
def dupL3 : RateLimits := ⟨some ⟨JsNum.fin 3, some (JsNum.fin 300)⟩, none⟩

/-- After the initial poll at `t = 0`: primary timer armed for `t = 300000`. -/
def dupS1 : MState := checkLimits true (some dupL1) 0 initState

/-- After that timer fires at `t = 300000` and its callback reconciles a
fresh snapshot: the callback re-arms the primary window and then its
trailing assignment nulls the stored handle. -/
def dupSC : MState :=
  timerCallbackFinish Window.primary (some dupL2) 300000 true
    (timerCallbackSync Window.primary 300000 true (elapse 0 dupS1))

/-- After a later poll at `t = 400000` reconciles yet another value:
the null handle prevents cancellation of the live timer and a second
primary timer is armed. -/
def dupSD : MState := checkLimits true (some dupL3) 400000 dupSC

/-! ### Claim theorems -/

/-- C1 (counterexample). A snapshot whose primary window is present but
carries no `resetsInSeconds`, reconciled against a state with a pending
primary reset and a live primary timer, clears `resetAt` to null and
cancels the live timer — contradicting the claim that such a reconcile
leaves `resetAt` and the timer untouched. -/
theorem reconcile_missing_resets_cex :
    stC1cex.primaryResetTime = some (JsNum.fin 300000) ∧
    LC1cex.primary = some ⟨JsNum.fin 12, none⟩ ∧
    (applyLimits LC1cex 100000 true stC1cex).primaryResetTime = none ∧
    (applyLimits LC1cex 100000 true stC1cex).live = [] :=
  ⟨rfl, rfl, by with_unfolding_all rfl, by with_unfolding_all rfl⟩

/-- C2 (code evaluated at the failing sequence). Poll at `t = 0` arms
primary timer 0; it fires at `t = 300000` and its callback reconciles a
changed reset, arming timer 1, after which the callback's trailing
assignment nulls the stored handle; a poll at `t = 400000` then cannot
cancel timer 1 and arms timer 2 — leaving two live primary timers,
violating the at-most-one-live-timer-per-window invariant. -/
theorem duplicate_timer_sequence_eval :
    dupSC.primaryTimer = none ∧
    dupSC.live.map (fun t => t.id) = [1] ∧
    dupSD.live.map (fun t => t.win) = [Window.primary, Window.primary] :=
  ⟨by with_unfolding_all rfl, by with_unfolding_all rfl, by with_unfolding_all rfl⟩

/-- C3 (counterexample). A producible snapshot with a negative
`resetsInSeconds` (headers can carry `"-5"`), reconciled while the
window is enabled, yields a non-null candidate that differs from the
stored `resetAt`, yet no timer is armed: the arming call fires
immediately (incrementing `pingCount`) instead of scheduling a timer —
contradicting "arms a new timer exactly when the window is enabled and
the candidate is non-null". -/
theorem reconcile_past_candidate_no_timer_cex :
    initState.primaryEnabled = true ∧
    (applyLimits LC3cex 1000000 true initState).primaryResetTime = some (JsNum.fin 995000) ∧
    (applyLimits LC3cex 1000000 true initState).live = [] ∧
    (applyLimits LC3cex 1000000 true initState).nextId = 0 ∧
    (applyLimits LC3cex 1000000 true initState).pingCount = 1 :=
  ⟨rfl, by with_unfolding_all rfl, by with_unfolding_all rfl, by with_unfolding_all rfl,
    by with_unfolding_all rfl⟩

/-- C4 (counterexample). With primary used-percent `"Infinity"` and
primary reset-after `"0"`, the primary `RateWindowInfo` is constructed
although its used-percent does not parse as a finite number, and
`resetsInSeconds` is absent although the reset-after value parses as
the finite number `0` — refuting both "exactly when ... finite" parts
of the claim at a single input. -/
theorem extract_nonfinite_and_zero_reset_cex :
    extractLimits hdrC4 = some ⟨some ⟨JsNum.inf, none⟩, none⟩ ∧
    parseHeader hdrC4 primaryUsedName = some JsNum.inf ∧
    parseHeader hdrC4 primaryResetName = some (JsNum.fin 0) :=
  ⟨by with_unfolding_all rfl, by with_unfolding_all rfl, by with_unfolding_all rfl⟩

/-- C9 (counterexample). Headers reporting used-percent `"150"` produce
a snapshot whose primary `usedPercent` is `150`, outside `[0, 100]`:
`extractLimits` performs no range check. -/
theorem extract_used_percent_out_of_range_cex :
    extractLimits hdrC9 = some ⟨some ⟨JsNum.fin 150, none⟩, none⟩ ∧
    ¬ ((0 : ℚ) ≤ 150 ∧ (150 : ℚ) ≤ 100) := by
  refine ⟨by with_unfolding_all rfl, ?_⟩
  norm_num

/-- C5. A cycle that obtains no snapshot changes none of the scheduler
state named by the claim: a poll without credentials or without a
snapshot is the identity on the state, and a firing whose ping yields
no snapshot (with or without credentials) leaves both windows'
`resetAt`, the set of live timers, and `lastLimits` exactly as they
were at callback entry. -/
theorem failed_cycle_preserves_state :
    (∀ (auth : Bool) (res : Option RateLimits) (now : ℚ) (st : MState),
      checkLimits false res now st = st ∧ checkLimits auth none now st = st) ∧
    (∀ (w : Window) (now now2 : ℚ) (auth2 : Bool) (st : MState),
      (timerCallbackFinish w none now2 auth2 (timerCallbackSync w now true st)).primaryResetTime
          = st.primaryResetTime ∧
      (timerCallbackFinish w none now2 auth2 (timerCallbackSync w now true st)).secondaryResetTime
          = st.secondaryResetTime ∧
      (timerCallbackFinish w none now2 auth2 (timerCallbackSync w now true st)).live = st.live ∧
      (timerCallbackFinish w none now2 auth2 (timerCallbackSync w now true st)).lastLimits
          = st.lastLimits ∧
      (timerCallbackSync w now false st).primaryResetTime = st.primaryResetTime ∧
      (timerCallbackSync w now false st).secondaryResetTime = st.secondaryResetTime ∧
      (timerCallbackSync w now false st).live = st.live ∧
      (timerCallbackSync w now false st).lastLimits = st.lastLimits) := by
  constructor
  · intro auth res now st
    constructor
    · rfl
    · cases auth <;> rfl
  · intro w now now2 auth2 st
    cases w <;> simp [timerCallbackSync, timerCallbackFinish, setHandle]

/-- C10. Whenever a poll or a firing resolution obtains a non-null
snapshot `L`, `lastLimits` afterwards is exactly `some L`: the snapshot
replaces the previous value wholesale, so a window absent from `L` is
absent from the state afterwards (no per-window merging). -/
theorem snapshot_replaces_lastLimits :
    ∀ (L : RateLimits) (now : ℚ) (authF : Bool) (st : MState) (w : Window),
      (checkLimits true (some L) now st).lastLimits = some L ∧
      (timerCallbackFinish w (some L) now authF st).lastLimits = some L ∧
      (immediateFinish (some L) now authF st).lastLimits = some L ∧
      ((checkLimits true (some L) now st).lastLimits.bind (fun x => x.primary)) = L.primary ∧
      ((checkLimits true (some L) now st).lastLimits.bind (fun x => x.secondary)) = L.secondary := by
  intro L now authF st w
  have hc : (checkLimits true (some L) now st).lastLimits = some L := by
    simp [checkLimits, applyLimits_lastLimits]
  refine ⟨hc, ?_, ?_, ?_, ?_⟩
  · simp [timerCallbackFinish, setHandle_lastLimits, applyLimits_lastLimits]
  · simp [immediateFinish, applyLimits_lastLimits]
  · simp [hc]
  · simp [hc]

/-- C7. When `schedulePing` is called with a truthy reset instant whose
clamped delay is not positive, for an enabled window with credentials
present, the firing handler's synchronous part runs before the call
returns: the state returned by the arming call already has `pingCount`
incremented and `lastPingAt` set, and no timer has been created (live
set and fresh-id counter untouched). -/
theorem immediate_fire_synchronous :
    ∀ (v : JsNum) (w : Window) (now : ℚ) (st : MState),
      jsTruthy v = true → getEnabled st w = true →
      jsGtZero (jsMax0 (jsSub v (JsNum.fin now))) = false →
      schedulePing (some v) w now true st
        = { st with pingCount := st.pingCount + 1, lastPingTime := some now } := by
  intro v w now st hv he hd
  simp [schedulePing, hv, he, hd]

/-- Witness for C7 at a concrete input: deadline 500 already passed at
`now = 1000`. -/
theorem immediate_fire_synchronous_witness :
    jsTruthy (JsNum.fin 500) = true ∧ getEnabled initState Window.primary = true ∧
    jsGtZero (jsMax0 (jsSub (JsNum.fin 500) (JsNum.fin 1000))) = false ∧
    schedulePing (some (JsNum.fin 500)) Window.primary 1000 true initState
      = { initState with pingCount := initState.pingCount + 1, lastPingTime := some 1000 } :=
  ⟨by with_unfolding_all rfl, rfl, by with_unfolding_all rfl,
    immediate_fire_synchronous (JsNum.fin 500) Window.primary 1000 initState
      (by with_unfolding_all rfl) rfl (by with_unfolding_all rfl)⟩

theorem setHandle_pingCount (w : Window) (h : Option ℕ) (st : MState) :
    (setHandle w h st).pingCount = st.pingCount := by
  cases w <;> rfl

theorem schedulePing_pingCount_le (r : Option JsNum) (w : Window) (now : ℚ) (auth : Bool)
    (st : MState) : st.pingCount ≤ (schedulePing r w now auth st).pingCount := by
  cases r with
  | none => exact le_rfl
  | some v =>
      simp only [schedulePing]
      split_ifs <;> simp [setHandle_pingCount]

theorem reconcilePrimary_pingCount_le (c : Option JsNum) (now : ℚ) (auth : Bool) (st : MState) :
    st.pingCount ≤ (reconcilePrimary c now auth st).pingCount := by
  simp only [reconcilePrimary]
  split_ifs <;>
    first
      | exact le_rfl
      | (refine le_trans ?_ (schedulePing_pingCount_le _ _ _ _ _); exact le_rfl)

theorem reconcileSecondary_pingCount_le (c : Option JsNum) (now : ℚ) (auth : Bool) (st : MState) :
    st.pingCount ≤ (reconcileSecondary c now auth st).pingCount := by
  simp only [reconcileSecondary]
  split_ifs <;>
    first
      | exact le_rfl
      | (refine le_trans ?_ (schedulePing_pingCount_le _ _ _ _ _); exact le_rfl)

theorem applyLimits_pingCount_le (L : RateLimits) (now : ℚ) (auth : Bool) (st : MState) :
    st.pingCount ≤ (applyLimits L now auth st).pingCount := by
  simp only [applyLimits]
  refine le_trans ?_ (reconcileSecondary_pingCount_le _ _ _ _)
  refine le_trans ?_ (reconcilePrimary_pingCount_le _ _ _ _)
  exact le_rfl

theorem stepApply_pingCount_le (s : OpStep) (st : MState) :
    st.pingCount ≤ (stepApply s st).pingCount := by
  cases s with
  | poll auth res now =>
      cases auth with
      | false => exact le_rfl
      | true =>
          cases res with
          | none => exact le_rfl
          | some L => exact applyLimits_pingCount_le L now true st
  | fireElapse tid => exact le_rfl
  | fireSync w now auth =>
      cases auth with
      | false => simp [stepApply, timerCallbackSync, setHandle_pingCount]
      | true => simp [stepApply, timerCallbackSync]
  | fireRes w res now auth =>
      cases res with
      | none => simp [stepApply, timerCallbackFinish, setHandle_pingCount]
      | some L =>
          simp only [stepApply, timerCallbackFinish]
          rw [setHandle_pingCount]
          exact applyLimits_pingCount_le L now auth st
  | thenRes res now auth =>
      cases res with
      | none => exact le_rfl
      | some L => exact applyLimits_pingCount_le L now auth st
  | toggle w flag now auth =>
      obtain ⟨pr, sr, pt, stm, lp, pc, ll, pe, se, lv, ni⟩ := st
      cases w with
      | primary =>
          simp only [stepApply, setEnabledOp]
          split_ifs with hf
          · cases pt <;> exact le_rfl
          · cases pr with
            | none => exact le_rfl
            | some v =>
                dsimp only
                split_ifs with ht
                · refine le_trans ?_ (schedulePing_pingCount_le _ _ _ _ _)
                  exact le_rfl
                · exact le_rfl
      | secondary =>
          simp only [stepApply, setEnabledOp]
          split_ifs with hf
          · cases stm <;> exact le_rfl
          · cases sr with
            | none => exact le_rfl
            | some v =>
                dsimp only
                split_ifs with ht
                · refine le_trans ?_ (schedulePing_pingCount_le _ _ _ _ _)
                  exact le_rfl
                · exact le_rfl

/-- C8. `pingCount` is a natural number (hence never negative), no
operation of the scheduler decreases it (single steps and arbitrary
operation sequences are monotone), and the synchronous part of a firing
with credentials present — the part that runs before `pingCodex`
resolves — increments it by exactly one, while a firing without
credentials leaves it unchanged. -/
theorem ping_count_monotone_attempt_counted :
    (∀ (s : OpStep) (st : MState), st.pingCount ≤ (stepApply s st).pingCount) ∧
    (∀ (l : List OpStep) (st : MState),
      st.pingCount ≤ (l.foldl (fun acc s => stepApply s acc) st).pingCount) ∧
    (∀ (w : Window) (now : ℚ) (st : MState),
      (timerCallbackSync w now true st).pingCount = st.pingCount + 1) ∧
    (∀ (w : Window) (now : ℚ) (st : MState),
      (timerCallbackSync w now false st).pingCount = st.pingCount) ∧
    (∀ (st : MState), 0 ≤ st.pingCount) := by
  refine ⟨stepApply_pingCount_le, ?_, ?_, ?_, ?_⟩
  · intro l
    induction l with
    | nil => intro st; exact le_rfl
    | cons s rest ih =>
        intro st
        exact le_trans (stepApply_pingCount_le s st) (ih (stepApply s st))
  · intro w now st
    rfl
  · intro w now st
    simp [timerCallbackSync, setHandle_pingCount]
  · intro st
    exact Nat.zero_le _

theorem truthyOrUndef_isSome (x : Option JsNum) :
    (truthyOrUndef x).isSome = true ↔ ∃ r, x = some r ∧ jsTruthy r = true := by
  cases x with
  | none => simp [truthyOrUndef]
  | some v =>
      simp only [truthyOrUndef]
      split_ifs with h <;> simp [h]

theorem truthyOrUndef_eq_some (x : Option JsNum) (r : JsNum) :
    truthyOrUndef x = some r → x = some r := by
  cases x with
  | none => simp [truthyOrUndef]
  | some v =>
      simp only [truthyOrUndef]
      split_ifs with h <;> simp_all

theorem extractLimits_shape (headers : Headers) :
    (extractLimits headers = none ↔
      (parseHeader headers primaryUsedName = none ∧
       parseHeader headers secondaryUsedName = none)) ∧
    (∀ L, extractLimits headers = some L →
      L.primary.isSome = (parseHeader headers primaryUsedName).isSome ∧
      L.secondary.isSome = (parseHeader headers secondaryUsedName).isSome ∧
      (∀ wi, L.primary = some wi →
        parseHeader headers primaryUsedName = some wi.used_percent ∧
        wi.resets_in_seconds = truthyOrUndef (parseHeader headers primaryResetName)) ∧
      (∀ wi, L.secondary = some wi →
        parseHeader headers secondaryUsedName = some wi.used_percent ∧
        wi.resets_in_seconds = truthyOrUndef (parseHeader headers secondaryResetName))) := by
  cases hp : parseHeader headers primaryUsedName with
  | none =>
      cases hs : parseHeader headers secondaryUsedName with
      | none =>
          constructor
          · simp [extractLimits, hp, hs]
          · intro L hL
            simp [extractLimits, hp, hs] at hL
      | some u =>
          constructor
          · simp [extractLimits, hp, hs]
          · intro L hL
            simp only [extractLimits, hp, hs] at hL
            simp only [Option.isSome_some, Option.isSome_none, Bool.true_eq_false,
              if_true, if_false, Bool.or_true, Option.some.injEq] at hL
            subst hL
            simp [hp, hs]
  | some u =>
      cases hs : parseHeader headers secondaryUsedName with
      | none =>
          constructor
          · simp [extractLimits, hp, hs]
          · intro L hL
            simp only [extractLimits, hp, hs] at hL
            simp only [Option.isSome_some, Option.isSome_none, if_true, if_false,
              Bool.true_or, Option.some.injEq] at hL
            subst hL
            simp [hp, hs]
      | some u2 =>
          constructor
          · simp [extractLimits, hp, hs]
          · intro L hL
            simp only [extractLimits, hp, hs] at hL
            simp only [Option.isSome_some, if_true, Bool.true_or, Option.some.injEq] at hL
            subst hL
            simp [hp, hs]

/-- C4 (amended). A window's `RateWindowInfo` is constructed exactly
when its used-percent header parses as a non-NaN number (finiteness is
not required: `Infinity` is accepted); `resetsInSeconds` is included
exactly when the reset-after header parses as a non-NaN, nonzero
number, and then carries exactly that value; `null` is returned exactly
when neither used-percent parsed. -/
theorem extract_construction_characterization :
    ∀ (headers : Headers),
      (extractLimits headers = none ↔
        (parseHeader headers primaryUsedName = none ∧
         parseHeader headers secondaryUsedName = none)) ∧
      (∀ L, extractLimits headers = some L →
        L.primary.isSome = (parseHeader headers primaryUsedName).isSome ∧
        L.secondary.isSome = (parseHeader headers secondaryUsedName).isSome ∧
        (∀ wi, L.primary = some wi →
          parseHeader headers primaryUsedName = some wi.used_percent ∧
          ((wi.resets_in_seconds).isSome = true ↔
            ∃ r, parseHeader headers primaryResetName = some r ∧ jsTruthy r = true) ∧
          (∀ r, wi.resets_in_seconds = some r →
            parseHeader headers primaryResetName = some r)) ∧
        (∀ wi, L.secondary = some wi →
          parseHeader headers secondaryUsedName = some wi.used_percent ∧
          ((wi.resets_in_seconds).isSome = true ↔
            ∃ r, parseHeader headers secondaryResetName = some r ∧ jsTruthy r = true) ∧
          (∀ r, wi.resets_in_seconds = some r →
            parseHeader headers secondaryResetName = some r))) := by
  intro headers
  obtain ⟨h1, h2⟩ := extractLimits_shape headers
  refine ⟨h1, ?_⟩
  intro L hL
  obtain ⟨hpi, hsi, hpw, hsw⟩ := h2 L hL
  refine ⟨hpi, hsi, ?_, ?_⟩
  · intro wi hwi
    obtain ⟨hu, hr⟩ := hpw wi hwi
    refine ⟨hu, ?_, ?_⟩
    · rw [hr]
      exact truthyOrUndef_isSome _
    · intro r hrr
      rw [hr] at hrr
      exact truthyOrUndef_eq_some _ _ hrr
  · intro wi hwi
    obtain ⟨hu, hr⟩ := hsw wi hwi
    refine ⟨hu, ?_, ?_⟩
    · rw [hr]
      exact truthyOrUndef_isSome _
    · intro r hrr
      rw [hr] at hrr
      exact truthyOrUndef_eq_some _ _ hrr

/-- Headers used as witness input: primary used-percent `"10"`,
primary reset-after `"300"`. -/
def hdrW : Headers := fun n =>
  if n = primaryUsedName then some ("10")
  else if n = primaryResetName then some ("300")
  else none

/-- Witness for C4's amended theorem at concrete headers. -/
theorem extract_construction_characterization_witness :
    extractLimits hdrW = some ⟨some ⟨JsNum.fin 10, some (JsNum.fin 300)⟩, none⟩ ∧
    parseHeader hdrW primaryUsedName = some (JsNum.fin 10) ∧
    parseHeader hdrW primaryResetName = some (JsNum.fin 300) := by
  have hE : extractLimits hdrW = some ⟨some ⟨JsNum.fin 10, some (JsNum.fin 300)⟩, none⟩ := by
    with_unfolding_all rfl
  have h := (extract_construction_characterization hdrW).2 _ hE
  exact ⟨hE, (h.2.2.1 _ rfl).1, (h.2.2.1 _ rfl).2.2 _ rfl⟩

/-- C9 (amended). `usedPercent` is exactly the value parsed from the
used-percent header, passed through with no range check: it lies in
`[0, 100]` only when the server reports a value in that range. -/
theorem extract_used_percent_passthrough :
    ∀ (headers : Headers) (L : RateLimits), extractLimits headers = some L →
      (∀ wi, L.primary = some wi → parseHeader headers primaryUsedName = some wi.used_percent) ∧
      (∀ wi, L.secondary = some wi →
        parseHeader headers secondaryUsedName = some wi.used_percent) := by
  intro headers L hL
  obtain ⟨hpi, hsi, hpw, hsw⟩ := (extractLimits_shape headers).2 L hL
  exact ⟨fun wi hwi => (hpw wi hwi).1, fun wi hwi => (hsw wi hwi).1⟩

/-- Witness for C9's amended theorem at the out-of-range headers. -/
theorem extract_used_percent_passthrough_witness :
    extractLimits hdrC9 = some ⟨some ⟨JsNum.fin 150, none⟩, none⟩ ∧
    parseHeader hdrC9 primaryUsedName = some (JsNum.fin 150) := by
  have hE : extractLimits hdrC9 = some ⟨some ⟨JsNum.fin 150, none⟩, none⟩ := by
    with_unfolding_all rfl
  exact ⟨hE, (extract_used_percent_passthrough hdrC9 _ hE).1 _ rfl⟩


/-! ### Live-set and per-window block lemmas -/

theorem cancelHandle_sub (h : ℕ) (l : List LiveTimer) (tmr : LiveTimer) :
    tmr ∈ cancelHandle h l → tmr ∈ l := by
  intro hm
  exact List.mem_of_mem_filter hm

theorem cancelHandle_id (h : ℕ) (l : List LiveTimer) (tmr : LiveTimer) :
    tmr ∈ cancelHandle h l → tmr.id ≠ h := by
  intro hm
  have := List.of_mem_filter hm
  simpa using this

theorem cancelHandle_mem (h : ℕ) (l : List LiveTimer) (tmr : LiveTimer) :
    tmr ∈ l → tmr.id ≠ h → tmr ∈ cancelHandle h l := by
  intro hm hid
  refine List.mem_filter.2 ⟨hm, ?_⟩
  simpa using hid

theorem clearOpt_sub (ho : Option ℕ) (l : List LiveTimer) (tmr : LiveTimer) :
    tmr ∈ clearOpt ho l → tmr ∈ l := by
  cases ho with
  | none => intro hm; exact hm
  | some h => exact cancelHandle_sub h l tmr

theorem clearOpt_mem (ho : Option ℕ) (l : List LiveTimer) (tmr : LiveTimer) :
    tmr ∈ l → ho ≠ some tmr.id → tmr ∈ clearOpt ho l := by
  cases ho with
  | none => intro hm _; exact hm
  | some h =>
      intro hm hne
      refine cancelHandle_mem h l tmr hm ?_
      intro hid
      exact hne (by rw [hid])

theorem setHandle_live (w : Window) (h : Option ℕ) (st : MState) :
    (setHandle w h st).live = st.live := by
  cases w <;> rfl

theorem setHandle_nextId (w : Window) (h : Option ℕ) (st : MState) :
    (setHandle w h st).nextId = st.nextId := by
  cases w <;> rfl

theorem setHandle_primaryResetTime (w : Window) (h : Option ℕ) (st : MState) :
    (setHandle w h st).primaryResetTime = st.primaryResetTime := by
  cases w <;> rfl

theorem setHandle_secondaryResetTime (w : Window) (h : Option ℕ) (st : MState) :
    (setHandle w h st).secondaryResetTime = st.secondaryResetTime := by
  cases w <;> rfl

theorem schedulePing_primaryResetTime (r : Option JsNum) (w : Window) (now : ℚ) (auth : Bool)
    (st : MState) : (schedulePing r w now auth st).primaryResetTime = st.primaryResetTime := by
  cases r with
  | none => rfl
  | some v =>
      simp only [schedulePing]
      split_ifs <;> simp [setHandle_primaryResetTime]

theorem schedulePing_secondaryResetTime (r : Option JsNum) (w : Window) (now : ℚ) (auth : Bool)
    (st : MState) : (schedulePing r w now auth st).secondaryResetTime = st.secondaryResetTime := by
  cases r with
  | none => rfl
  | some v =>
      simp only [schedulePing]
      split_ifs <;> simp [setHandle_secondaryResetTime]

theorem schedulePing_secondaryTimer_of_primary (r : Option JsNum) (now : ℚ) (auth : Bool)
    (st : MState) :
    (schedulePing r Window.primary now auth st).secondaryTimer = st.secondaryTimer := by
  cases r with
  | none => rfl
  | some v =>
      simp only [schedulePing]
      split_ifs <;> simp [setHandle]

theorem schedulePing_primaryTimer_of_secondary (r : Option JsNum) (now : ℚ) (auth : Bool)
    (st : MState) :
    (schedulePing r Window.secondary now auth st).primaryTimer = st.primaryTimer := by
  cases r with
  | none => rfl
  | some v =>
      simp only [schedulePing]
      split_ifs <;> simp [setHandle]

theorem schedulePing_live_sub (r : Option JsNum) (w : Window) (now : ℚ) (auth : Bool)
    (st : MState) (tmr : LiveTimer) :
    tmr ∈ st.live → tmr ∈ (schedulePing r w now auth st).live := by
  intro hm
  cases r with
  | none => exact hm
  | some v =>
      simp only [schedulePing]
      split_ifs <;>
        first
          | exact hm
          | (rw [setHandle_live]; exact List.mem_append_left _ hm)

theorem schedulePing_live_new (r : Option JsNum) (w : Window) (now : ℚ) (auth : Bool)
    (st : MState) (tmr : LiveTimer) :
    tmr ∈ (schedulePing r w now auth st).live →
    tmr ∈ st.live ∨ (tmr.win = w ∧ tmr.id = st.nextId) := by
  intro hm
  cases r with
  | none => exact Or.inl hm
  | some v =>
      simp only [schedulePing] at hm
      split_ifs at hm <;>
        first
          | exact Or.inl hm
          | (rw [setHandle_live] at hm
             simp only [List.mem_append, List.mem_singleton] at hm
             cases hm with
             | inl hmm => exact Or.inl hmm
             | inr hmm => subst hmm; exact Or.inr ⟨rfl, rfl⟩)

theorem reconcilePrimary_secondaryResetTime (c : Option JsNum) (now : ℚ) (auth : Bool)
    (st : MState) :
    (reconcilePrimary c now auth st).secondaryResetTime = st.secondaryResetTime := by
  simp only [reconcilePrimary]
  split_ifs <;> simp [schedulePing_secondaryResetTime]

theorem reconcilePrimary_secondaryTimer (c : Option JsNum) (now : ℚ) (auth : Bool)
    (st : MState) :
    (reconcilePrimary c now auth st).secondaryTimer = st.secondaryTimer := by
  simp only [reconcilePrimary]
  split_ifs <;> simp [schedulePing_secondaryTimer_of_primary]

theorem reconcileSecondary_primaryResetTime (c : Option JsNum) (now : ℚ) (auth : Bool)
    (st : MState) :
    (reconcileSecondary c now auth st).primaryResetTime = st.primaryResetTime := by
  simp only [reconcileSecondary]
  split_ifs <;> simp [schedulePing_primaryResetTime]

theorem reconcileSecondary_primaryTimer (c : Option JsNum) (now : ℚ) (auth : Bool)
    (st : MState) :
    (reconcileSecondary c now auth st).primaryTimer = st.primaryTimer := by
  simp only [reconcileSecondary]
  split_ifs <;> simp [schedulePing_primaryTimer_of_secondary]

theorem reconcilePrimary_live_sub (c : Option JsNum) (now : ℚ) (auth : Bool) (st : MState)
    (tmr : LiveTimer) :
    tmr ∈ st.live → st.primaryTimer ≠ some tmr.id →
    tmr ∈ (reconcilePrimary c now auth st).live := by
  intro hm hne
  simp only [reconcilePrimary]
  split_ifs with h1 h2
  · exact hm
  · exact schedulePing_live_sub _ _ _ _ _ _ (clearOpt_mem _ _ _ hm hne)
  · exact clearOpt_mem _ _ _ hm hne

theorem reconcileSecondary_live_sub (c : Option JsNum) (now : ℚ) (auth : Bool) (st : MState)
    (tmr : LiveTimer) :
    tmr ∈ st.live → st.secondaryTimer ≠ some tmr.id →
    tmr ∈ (reconcileSecondary c now auth st).live := by
  intro hm hne
  simp only [reconcileSecondary]
  split_ifs with h1 h2
  · exact hm
  · exact schedulePing_live_sub _ _ _ _ _ _ (clearOpt_mem _ _ _ hm hne)
  · exact clearOpt_mem _ _ _ hm hne

theorem reconcilePrimary_live_new (c : Option JsNum) (now : ℚ) (auth : Bool) (st : MState)
    (tmr : LiveTimer) :
    tmr ∈ (reconcilePrimary c now auth st).live →
    tmr ∈ st.live ∨ (tmr.win = Window.primary ∧ tmr.id = st.nextId) := by
  intro hm
  simp only [reconcilePrimary] at hm
  split_ifs at hm with h1 h2
  · exact Or.inl hm
  · cases schedulePing_live_new _ _ _ _ _ _ hm with
    | inl hmm => exact Or.inl (clearOpt_sub _ _ _ hmm)
    | inr hmm => exact Or.inr hmm
  · exact Or.inl (clearOpt_sub _ _ _ hm)

theorem reconcileSecondary_live_new (c : Option JsNum) (now : ℚ) (auth : Bool) (st : MState)
    (tmr : LiveTimer) :
    tmr ∈ (reconcileSecondary c now auth st).live →
    tmr ∈ st.live ∨ (tmr.win = Window.secondary ∧ tmr.id = st.nextId) := by
  intro hm
  simp only [reconcileSecondary] at hm
  split_ifs at hm with h1 h2
  · exact Or.inl hm
  · cases schedulePing_live_new _ _ _ _ _ _ hm with
    | inl hmm => exact Or.inl (clearOpt_sub _ _ _ hmm)
    | inr hmm => exact Or.inr hmm
  · exact Or.inl (clearOpt_sub _ _ _ hm)

theorem jsStrictEqOpt_none_left (x : Option JsNum) :
    jsStrictEqOpt none x = true ↔ x = none := by
  cases x <;> simp [jsStrictEqOpt]

theorem reconcilePrimary_none (now : ℚ) (auth : Bool) (st : MState) :
    reconcilePrimary none now auth st =
      if st.primaryResetTime = none then st
      else { st with primaryResetTime := none, live := clearOpt st.primaryTimer st.live } := by
  simp only [reconcilePrimary]
  cases hpr : st.primaryResetTime with
  | none => simp [jsStrictEqOpt]
  | some v =>
      have h1 : ¬ (jsStrictEqOpt none (some v) = true) := by simp [jsStrictEqOpt]
      have h2 : ¬ ((some v : Option JsNum) = none) := by simp
      rw [if_neg h1, if_neg h2]
      simp only [schedulePing, ite_self]

theorem reconcileSecondary_none (now : ℚ) (auth : Bool) (st : MState) :
    reconcileSecondary none now auth st =
      if st.secondaryResetTime = none then st
      else { st with secondaryResetTime := none, live := clearOpt st.secondaryTimer st.live } := by
  simp only [reconcileSecondary]
  cases hsr : st.secondaryResetTime with
  | none => simp [jsStrictEqOpt]
  | some v =>
      have h1 : ¬ (jsStrictEqOpt none (some v) = true) := by simp [jsStrictEqOpt]
      have h2 : ¬ ((some v : Option JsNum) = none) := by simp
      rw [if_neg h1, if_neg h2]
      simp only [schedulePing, ite_self]

/-- C1 (amended). For every snapshot in which `resetsInSeconds` is
absent for window W (the candidate is null), for either window and an
arbitrary state: W's `resetAt` afterwards is null, W's stored handle is
left in place, and no new W timer is armed.  If W's `resetAt` was
already null, W is untouched: every live timer not referenced by the
other window's handle stays live.  If W's `resetAt` was non-null, the
null-vs-value difference triggers the update branch and the timer
referenced by W's handle is cancelled. -/
theorem reconcile_missing_resets_amended :
    ∀ (L : RateLimits) (now : ℚ) (auth : Bool) (st : MState),
      (candOf L.primary now = none →
        (applyLimits L now auth st).primaryResetTime = none ∧
        (applyLimits L now auth st).primaryTimer = st.primaryTimer ∧
        (∀ tmr, tmr ∈ (applyLimits L now auth st).live → tmr.win = Window.primary →
          tmr ∈ st.live) ∧
        (st.primaryResetTime = none →
          ∀ tmr, tmr ∈ st.live → st.secondaryTimer ≠ some tmr.id →
            tmr ∈ (applyLimits L now auth st).live) ∧
        (st.primaryResetTime ≠ none →
          ∀ h, st.primaryTimer = some h → h < st.nextId →
            ∀ tmr, tmr ∈ (applyLimits L now auth st).live → tmr.id ≠ h)) ∧
      (candOf L.secondary now = none →
        (applyLimits L now auth st).secondaryResetTime = none ∧
        (applyLimits L now auth st).secondaryTimer = st.secondaryTimer ∧
        (∀ tmr, tmr ∈ (applyLimits L now auth st).live → tmr.win = Window.secondary →
          tmr ∈ st.live) ∧
        (st.secondaryResetTime = none →
          ∀ tmr, tmr ∈ st.live → st.primaryTimer ≠ some tmr.id →
            tmr ∈ (applyLimits L now auth st).live) ∧
        (st.secondaryResetTime ≠ none →
          ∀ h, st.secondaryTimer = some h →
            ∀ tmr, tmr ∈ (applyLimits L now auth st).live → tmr.id ≠ h)) := by
  intro L now auth st
  constructor
  · intro hc
    have hA : applyLimits L now auth st =
        reconcileSecondary (candOf L.secondary now) now auth
          (reconcilePrimary none now auth { st with lastLimits := some L }) := by
      simp only [applyLimits, hc]
    rw [reconcilePrimary_none] at hA
    by_cases hpr : st.primaryResetTime = none
    · rw [if_pos (show ({ st with lastLimits := some L } : MState).primaryResetTime = none
        from hpr)] at hA
      refine ⟨?_, ?_, ?_, ?_, ?_⟩
      · rw [hA, reconcileSecondary_primaryResetTime]
        exact hpr
      · rw [hA, reconcileSecondary_primaryTimer]
      · intro tmr hm hwin
        rw [hA] at hm
        rcases reconcileSecondary_live_new _ _ _ _ tmr hm with h | ⟨hw2, _⟩
        · exact h
        · rw [hwin] at hw2
          cases hw2
      · intro _ tmr hm hsec
        rw [hA]
        exact reconcileSecondary_live_sub _ _ _ _ tmr hm hsec
      · intro hprn
        exact absurd hpr hprn
    · rw [if_neg (show ¬ ({ st with lastLimits := some L } : MState).primaryResetTime = none
        from hpr)] at hA
      refine ⟨?_, ?_, ?_, ?_, ?_⟩
      · rw [hA, reconcileSecondary_primaryResetTime]
      · rw [hA, reconcileSecondary_primaryTimer]
      · intro tmr hm hwin
        rw [hA] at hm
        rcases reconcileSecondary_live_new _ _ _ _ tmr hm with h | ⟨hw2, _⟩
        · exact clearOpt_sub _ _ _ h
        · rw [hwin] at hw2
          cases hw2
      · intro hprn
        exact absurd hprn hpr
      · intro _ h hh hlt tmr hm
        rw [hA] at hm
        rcases reconcileSecondary_live_new _ _ _ _ tmr hm with hmm | ⟨_, hid⟩
        · have hmm2 : tmr ∈ clearOpt st.primaryTimer st.live := hmm
          rw [hh] at hmm2
          exact cancelHandle_id _ _ _ hmm2
        · have hid2 : tmr.id = st.nextId := hid
          rw [hid2]
          exact Nat.ne_of_gt hlt
  · intro hc
    have hA : applyLimits L now auth st =
        reconcileSecondary none now auth
          (reconcilePrimary (candOf L.primary now) now auth { st with lastLimits := some L }) := by
      simp only [applyLimits, hc]
    rw [reconcileSecondary_none] at hA
    have hMsr : (reconcilePrimary (candOf L.primary now) now auth
        { st with lastLimits := some L }).secondaryResetTime = st.secondaryResetTime :=
      reconcilePrimary_secondaryResetTime _ _ _ _
    have hMst : (reconcilePrimary (candOf L.primary now) now auth
        { st with lastLimits := some L }).secondaryTimer = st.secondaryTimer :=
      reconcilePrimary_secondaryTimer _ _ _ _
    by_cases hsr : st.secondaryResetTime = none
    · rw [if_pos (by rw [hMsr]; exact hsr)] at hA
      refine ⟨?_, ?_, ?_, ?_, ?_⟩
      · rw [hA, hMsr]
        exact hsr
      · rw [hA, hMst]
      · intro tmr hm hwin
        rw [hA] at hm
        rcases reconcilePrimary_live_new _ _ _ _ tmr hm with h | ⟨hw2, _⟩
        · exact h
        · rw [hwin] at hw2
          cases hw2
      · intro _ tmr hm hpne
        rw [hA]
        exact reconcilePrimary_live_sub _ _ _ _ tmr hm hpne
      · intro hsrn
        exact absurd hsr hsrn
    · rw [if_neg (by rw [hMsr]; exact hsr)] at hA
      refine ⟨?_, ?_, ?_, ?_, ?_⟩
      · rw [hA]
      · rw [hA]
        exact hMst
      · intro tmr hm hwin
        rw [hA] at hm
        have hm2 := clearOpt_sub _ _ _ hm
        rcases reconcilePrimary_live_new _ _ _ _ tmr hm2 with h | ⟨hw2, _⟩
        · exact h
        · rw [hwin] at hw2
          cases hw2
      · intro hsrn
        exact absurd hsrn hsr
      · intro _ h hh tmr hm
        rw [hA] at hm
        have hm2 : tmr ∈ clearOpt
            (reconcilePrimary (candOf L.primary now) now auth
              { st with lastLimits := some L }).secondaryTimer
            (reconcilePrimary (candOf L.primary now) now auth
              { st with lastLimits := some L }).live := hm
        rw [hMst, hh] at hm2
        exact cancelHandle_id _ _ _ hm2

/-- Witness for C1's amended theorem at the counterexample input: the
non-null case clears `resetAt`, keeps the handle and cancels timer 0. -/
theorem reconcile_missing_resets_amended_witness :
    candOf LC1cex.primary 100000 = none ∧
    stC1cex.primaryResetTime ≠ none ∧
    stC1cex.primaryTimer = some 0 ∧
    0 < stC1cex.nextId ∧
    (applyLimits LC1cex 100000 true stC1cex).primaryResetTime = none ∧
    (applyLimits LC1cex 100000 true stC1cex).primaryTimer = stC1cex.primaryTimer ∧
    (∀ tmr, tmr ∈ (applyLimits LC1cex 100000 true stC1cex).live → tmr.id ≠ 0) := by
  have h := (reconcile_missing_resets_amended LC1cex 100000 true stC1cex).1 rfl
  refine ⟨rfl, Option.some_ne_none _, rfl, Nat.one_pos, h.1, h.2.1, ?_⟩
  intro tmr hm
  exact h.2.2.2.2 (Option.some_ne_none _) 0 rfl Nat.one_pos tmr hm

theorem reconcilePrimary_cases (c : Option JsNum) (now : ℚ) (auth : Bool) (st : MState) :
    (jsStrictEqOpt c st.primaryResetTime = true → reconcilePrimary c now auth st = st) ∧
    (jsStrictEqOpt c st.primaryResetTime = false →
      (c = none →
        reconcilePrimary c now auth st =
          { st with primaryResetTime := none, live := clearOpt st.primaryTimer st.live }) ∧
      (∀ v, c = some v →
        (st.primaryEnabled = false →
          reconcilePrimary c now auth st =
            { st with primaryResetTime := some v, live := clearOpt st.primaryTimer st.live }) ∧
        (st.primaryEnabled = true →
          (jsTruthy v = false →
            reconcilePrimary c now auth st =
              { st with primaryResetTime := some v, live := clearOpt st.primaryTimer st.live }) ∧
          (jsTruthy v = true →
            (jsGtZero (jsMax0 (jsSub v (JsNum.fin now))) = true →
              reconcilePrimary c now auth st =
                { st with
                  primaryResetTime := some v
                  primaryTimer := some st.nextId
                  live := clearOpt st.primaryTimer st.live ++
                    [⟨st.nextId, Window.primary, jsMax0 (jsSub v (JsNum.fin now)), now⟩]
                  nextId := st.nextId + 1 }) ∧
            (jsGtZero (jsMax0 (jsSub v (JsNum.fin now))) = false →
              (auth = true →
                reconcilePrimary c now auth st =
                  { st with
                    primaryResetTime := some v
                    pingCount := st.pingCount + 1
                    lastPingTime := some now
                    live := clearOpt st.primaryTimer st.live }) ∧
              (auth = false →
                reconcilePrimary c now auth st =
                  { st with
                    primaryResetTime := some v
                    live := clearOpt st.primaryTimer st.live })))))) := by
  obtain ⟨pr, sr, pt, stm, lp, pc, ll, pe, se, lv, ni⟩ := st
  simp only
  constructor
  · intro heq
    simp only [reconcilePrimary, heq, if_true]
  · intro hne
    constructor
    · intro hcn
      subst hcn
      rw [reconcilePrimary_none]
      rw [if_neg]
      intro h0
      simp only at h0
      rw [h0] at hne
      simp [jsStrictEqOpt] at hne
    · intro v hcv
      subst hcv
      refine ⟨?_, ?_⟩
      · intro hdis
        simp only [reconcilePrimary, hne, Bool.false_eq_true, if_false, hdis]
      · intro hen
        refine ⟨?_, ?_⟩
        · intro htv
          simp only [reconcilePrimary, hne, Bool.false_eq_true, if_false, hen, if_true,
            schedulePing, htv]
        · intro htv
          refine ⟨?_, ?_⟩
          · intro hd
            simp only [reconcilePrimary, hne, Bool.false_eq_true, if_false, hen, if_true,
              schedulePing, htv, Bool.true_eq_false, getEnabled, hd, setHandle]
          · intro hd
            refine ⟨?_, ?_⟩
            · intro hauth
              subst hauth
              simp only [reconcilePrimary, hne, Bool.false_eq_true, if_false, hen, if_true,
                schedulePing, htv, Bool.true_eq_false, getEnabled, hd, if_true]
            · intro hauth
              subst hauth
              simp only [reconcilePrimary, hne, Bool.false_eq_true, if_false, hen, if_true,
                schedulePing, htv, Bool.true_eq_false, getEnabled, hd]

theorem reconcileSecondary_cases (c : Option JsNum) (now : ℚ) (auth : Bool) (st : MState) :
    (jsStrictEqOpt c st.secondaryResetTime = true → reconcileSecondary c now auth st = st) ∧
    (jsStrictEqOpt c st.secondaryResetTime = false →
      (c = none →
        reconcileSecondary c now auth st =
          { st with secondaryResetTime := none, live := clearOpt st.secondaryTimer st.live }) ∧
      (∀ v, c = some v →
        (st.secondaryEnabled = false →
          reconcileSecondary c now auth st =
            { st with secondaryResetTime := some v, live := clearOpt st.secondaryTimer st.live }) ∧
        (st.secondaryEnabled = true →
          (jsTruthy v = false →
            reconcileSecondary c now auth st =
              { st with
                secondaryResetTime := some v
                live := clearOpt st.secondaryTimer st.live }) ∧
          (jsTruthy v = true →
            (jsGtZero (jsMax0 (jsSub v (JsNum.fin now))) = true →
              reconcileSecondary c now auth st =
                { st with
                  secondaryResetTime := some v
                  secondaryTimer := some st.nextId
                  live := clearOpt st.secondaryTimer st.live ++
                    [⟨st.nextId, Window.secondary, jsMax0 (jsSub v (JsNum.fin now)), now⟩]
                  nextId := st.nextId + 1 }) ∧
            (jsGtZero (jsMax0 (jsSub v (JsNum.fin now))) = false →
              (auth = true →
                reconcileSecondary c now auth st =
                  { st with
                    secondaryResetTime := some v
                    pingCount := st.pingCount + 1
                    lastPingTime := some now
                    live := clearOpt st.secondaryTimer st.live }) ∧
              (auth = false →
                reconcileSecondary c now auth st =
                  { st with
                    secondaryResetTime := some v
                    live := clearOpt st.secondaryTimer st.live })))))) := by
  obtain ⟨pr, sr, pt, stm, lp, pc, ll, pe, se, lv, ni⟩ := st
  simp only
  constructor
  · intro heq
    simp only [reconcileSecondary, heq, if_true]
  · intro hne
    constructor
    · intro hcn
      subst hcn
      rw [reconcileSecondary_none]
      rw [if_neg]
      intro h0
      simp only at h0
      rw [h0] at hne
      simp [jsStrictEqOpt] at hne
    · intro v hcv
      subst hcv
      refine ⟨?_, ?_⟩
      · intro hdis
        simp only [reconcileSecondary, hne, Bool.false_eq_true, if_false, hdis]
      · intro hen
        refine ⟨?_, ?_⟩
        · intro htv
          simp only [reconcileSecondary, hne, Bool.false_eq_true, if_false, hen, if_true,
            schedulePing, htv]
        · intro htv
          refine ⟨?_, ?_⟩
          · intro hd
            simp only [reconcileSecondary, hne, Bool.false_eq_true, if_false, hen, if_true,
              schedulePing, htv, Bool.true_eq_false, getEnabled, hd, setHandle]
          · intro hd
            refine ⟨?_, ?_⟩
            · intro hauth
              subst hauth
              simp only [reconcileSecondary, hne, Bool.false_eq_true, if_false, hen, if_true,
                schedulePing, htv, Bool.true_eq_false, getEnabled, hd, if_true]
            · intro hauth
              subst hauth
              simp only [reconcileSecondary, hne, Bool.false_eq_true, if_false, hen, if_true,
                schedulePing, htv, Bool.true_eq_false, getEnabled, hd]

/-- C3 (amended). A reconcile is, per its definition, the sequential
composition of two independent per-window blocks applied to the
candidates computed from `now`.  The candidate for a window is
`now + resetsInSeconds * 1000` exactly when `resetsInSeconds` is
present and truthy (nonzero, non-NaN), else null.  Each block, for any
candidate and state: on exact strict equality with the stored `resetAt`
it changes nothing; on any difference (including null-vs-value) it
cancels the timer referenced by the window's stored handle, stores the
candidate, and invokes the arming call exactly when the window is
enabled and the candidate is non-null (and truthy) — the arming call
creates a fresh timer when the clamped delay is positive, and
otherwise fires immediately without creating any timer, incrementing
`pingCount` and setting `lastPingTime` when credentials are present. -/
theorem reconcile_window_characterization :
    ∀ (L : RateLimits) (now : ℚ) (auth : Bool) (st : MState),
      (applyLimits L now auth st =
        reconcileSecondary (candOf L.secondary now) now auth
          (reconcilePrimary (candOf L.primary now) now auth
            { st with lastLimits := some L })) ∧
      (L.primary = none → candOf L.primary now = none) ∧
      (∀ wi, L.primary = some wi → wi.resets_in_seconds = none →
        candOf L.primary now = none) ∧
      (∀ wi r, L.primary = some wi → wi.resets_in_seconds = some r → jsTruthy r = false →
        candOf L.primary now = none) ∧
      (∀ wi r, L.primary = some wi → wi.resets_in_seconds = some r → jsTruthy r = true →
        candOf L.primary now = some (jsAdd (JsNum.fin now) (jsMul r (JsNum.fin 1000)))) ∧
      (L.secondary = none → candOf L.secondary now = none) ∧
      (∀ wi, L.secondary = some wi → wi.resets_in_seconds = none →
        candOf L.secondary now = none) ∧
      (∀ wi r, L.secondary = some wi → wi.resets_in_seconds = some r → jsTruthy r = false →
        candOf L.secondary now = none) ∧
      (∀ wi r, L.secondary = some wi → wi.resets_in_seconds = some r → jsTruthy r = true →
        candOf L.secondary now = some (jsAdd (JsNum.fin now) (jsMul r (JsNum.fin 1000)))) ∧
      (∀ (c : Option JsNum) (n2 : ℚ) (a2 : Bool) (s2 : MState),
        (jsStrictEqOpt c s2.primaryResetTime = true → reconcilePrimary c n2 a2 s2 = s2) ∧
        (jsStrictEqOpt c s2.primaryResetTime = false →
          (c = none →
            reconcilePrimary c n2 a2 s2 =
              { s2 with primaryResetTime := none, live := clearOpt s2.primaryTimer s2.live }) ∧
          (∀ v, c = some v →
            (s2.primaryEnabled = false →
              reconcilePrimary c n2 a2 s2 =
                { s2 with
                  primaryResetTime := some v
                  live := clearOpt s2.primaryTimer s2.live }) ∧
            (s2.primaryEnabled = true →
              (jsTruthy v = false →
                reconcilePrimary c n2 a2 s2 =
                  { s2 with
                    primaryResetTime := some v
                    live := clearOpt s2.primaryTimer s2.live }) ∧
              (jsTruthy v = true →
                (jsGtZero (jsMax0 (jsSub v (JsNum.fin n2))) = true →
                  reconcilePrimary c n2 a2 s2 =
                    { s2 with
                      primaryResetTime := some v
                      primaryTimer := some s2.nextId
                      live := clearOpt s2.primaryTimer s2.live ++
                        [⟨s2.nextId, Window.primary, jsMax0 (jsSub v (JsNum.fin n2)), n2⟩]
                      nextId := s2.nextId + 1 }) ∧
                (jsGtZero (jsMax0 (jsSub v (JsNum.fin n2))) = false →
                  (a2 = true →
                    reconcilePrimary c n2 a2 s2 =
                      { s2 with
                        primaryResetTime := some v
                        pingCount := s2.pingCount + 1
                        lastPingTime := some n2
                        live := clearOpt s2.primaryTimer s2.live }) ∧
                  (a2 = false →
                    reconcilePrimary c n2 a2 s2 =
                      { s2 with
                        primaryResetTime := some v
                        live := clearOpt s2.primaryTimer s2.live }))))))) ∧
      (∀ (c : Option JsNum) (n2 : ℚ) (a2 : Bool) (s2 : MState),
        (jsStrictEqOpt c s2.secondaryResetTime = true → reconcileSecondary c n2 a2 s2 = s2) ∧
        (jsStrictEqOpt c s2.secondaryResetTime = false →
          (c = none →
            reconcileSecondary c n2 a2 s2 =
              { s2 with
                secondaryResetTime := none
                live := clearOpt s2.secondaryTimer s2.live }) ∧
          (∀ v, c = some v →
            (s2.secondaryEnabled = false →
              reconcileSecondary c n2 a2 s2 =
                { s2 with
                  secondaryResetTime := some v
                  live := clearOpt s2.secondaryTimer s2.live }) ∧
            (s2.secondaryEnabled = true →
              (jsTruthy v = false →
                reconcileSecondary c n2 a2 s2 =
                  { s2 with
                    secondaryResetTime := some v
                    live := clearOpt s2.secondaryTimer s2.live }) ∧
              (jsTruthy v = true →
                (jsGtZero (jsMax0 (jsSub v (JsNum.fin n2))) = true →
                  reconcileSecondary c n2 a2 s2 =
                    { s2 with
                      secondaryResetTime := some v
                      secondaryTimer := some s2.nextId
                      live := clearOpt s2.secondaryTimer s2.live ++
                        [⟨s2.nextId, Window.secondary, jsMax0 (jsSub v (JsNum.fin n2)), n2⟩]
                      nextId := s2.nextId + 1 }) ∧
                (jsGtZero (jsMax0 (jsSub v (JsNum.fin n2))) = false →
                  (a2 = true →
                    reconcileSecondary c n2 a2 s2 =
                      { s2 with
                        secondaryResetTime := some v
                        pingCount := s2.pingCount + 1
                        lastPingTime := some n2
                        live := clearOpt s2.secondaryTimer s2.live }) ∧
                  (a2 = false →
                    reconcileSecondary c n2 a2 s2 =
                      { s2 with
                        secondaryResetTime := some v
                        live := clearOpt s2.secondaryTimer s2.live }))))))) := by
  intro L now auth st
  refine ⟨rfl, ?_, ?_, ?_, ?_, ?_, ?_, ?_, ?_,
    fun c n2 a2 s2 => reconcilePrimary_cases c n2 a2 s2,
    fun c n2 a2 s2 => reconcileSecondary_cases c n2 a2 s2⟩
  · intro h
    rw [h]
    rfl
  · intro wi h1 h2
    rw [h1]
    simp [candOf, h2]
  · intro wi r h1 h2 h3
    rw [h1]
    simp [candOf, h2, h3]
  · intro wi r h1 h2 h3
    rw [h1]
    simp [candOf, h2, h3]
  · intro h
    rw [h]
    rfl
  · intro wi h1 h2
    rw [h1]
    simp [candOf, h2]
  · intro wi r h1 h2 h3
    rw [h1]
    simp [candOf, h2, h3]
  · intro wi r h1 h2 h3
    rw [h1]
    simp [candOf, h2, h3]

/-- Snapshot used by the C3 witness: primary reset in 300 s. -/
def LW3 : RateLimits := ⟨some ⟨JsNum.fin 10, some (JsNum.fin 300)⟩, none⟩

/-- State used by the C3 witness: a differing stored reset and a live
primary timer. -/
def stW3 : MState :=
  { initState with
    primaryResetTime := some (JsNum.fin 111)
    primaryTimer := some 3
    live := [⟨3, Window.primary, JsNum.fin 1, 2⟩]
    nextId := 7 }

/-- Witness for C3's amended theorem at concrete inputs: a changed
future candidate cancels the old timer and arms a fresh one, and a
changed past candidate fires immediately, creating no timer. -/
theorem reconcile_window_characterization_witness :
    candOf LW3.primary 1000 = some (JsNum.fin 301000) ∧
    jsStrictEqOpt (candOf LW3.primary 1000)
      ({ stW3 with lastLimits := some LW3 } : MState).primaryResetTime = false ∧
    applyLimits LW3 1000 true stW3 =
      { stW3 with
        primaryResetTime := some (JsNum.fin 301000)
        primaryTimer := some 7
        lastLimits := some LW3
        live := clearOpt stW3.primaryTimer stW3.live ++
          [⟨7, Window.primary, jsMax0 (jsSub (JsNum.fin 301000) (JsNum.fin 1000)), 1000⟩]
        nextId := 8 } ∧
    jsGtZero (jsMax0 (jsSub (JsNum.fin 500) (JsNum.fin 1000))) = false ∧
    reconcilePrimary (some (JsNum.fin 500)) 1000 true initState =
      { initState with
        primaryResetTime := some (JsNum.fin 500)
        pingCount := 1
        lastPingTime := some 1000 } := by
  have hw := reconcile_window_characterization LW3 1000 true stW3
  have hcomp := hw.1
  have hblockP := hw.2.2.2.2.2.2.2.2.2.1
  have hblockS := hw.2.2.2.2.2.2.2.2.2.2
  have hcand : candOf LW3.primary 1000 = some (JsNum.fin 301000) := by
    with_unfolding_all rfl
  have hne : jsStrictEqOpt (candOf LW3.primary 1000)
      ({ stW3 with lastLimits := some LW3 } : MState).primaryResetTime = false := by
    with_unfolding_all rfl
  have htv : jsTruthy (JsNum.fin 301000) = true := by
    with_unfolding_all rfl
  have hd : jsGtZero (jsMax0 (jsSub (JsNum.fin 301000) (JsNum.fin 1000))) = true := by
    with_unfolding_all rfl
  have hParm := (((((hblockP (candOf LW3.primary 1000) 1000 true
    { stW3 with lastLimits := some LW3 }).2 hne).2 (JsNum.fin 301000) hcand).2 rfl).2 htv).1 hd
  have hfinal : applyLimits LW3 1000 true stW3 =
      { stW3 with
        primaryResetTime := some (JsNum.fin 301000)
        primaryTimer := some 7
        lastLimits := some LW3
        live := clearOpt stW3.primaryTimer stW3.live ++
          [⟨7, Window.primary, jsMax0 (jsSub (JsNum.fin 301000) (JsNum.fin 1000)), 1000⟩]
        nextId := 8 } := by
    rw [hcomp, hParm]
    exact (hblockS (candOf LW3.secondary 1000) 1000 true _).1 (by with_unfolding_all rfl)
  have hne2 : jsStrictEqOpt (some (JsNum.fin 500)) initState.primaryResetTime = false := rfl
  have htv2 : jsTruthy (JsNum.fin 500) = true := by
    with_unfolding_all rfl
  have hd2 : jsGtZero (jsMax0 (jsSub (JsNum.fin 500) (JsNum.fin 1000))) = false := by
    with_unfolding_all rfl
  have hImm := ((((((hblockP (some (JsNum.fin 500)) 1000 true initState).2 hne2).2
    (JsNum.fin 500) rfl).2 rfl).2 htv2).2 hd2).1 rfl
  exact ⟨hcand, hne, hfinal, hd2, hImm⟩

/-- State for the C6 counterexample: pending primary reset at 100 ms
with a live primary timer. -/
def stC6 : MState :=
  { initState with
    primaryResetTime := some (JsNum.fin 100)
    primaryTimer := some 0
    live := [⟨0, Window.primary, JsNum.fin 50, 10⟩]
    nextId := 1 }

/-- C6 (counterexample). Toggling the primary window off at t = 60 and
back on at t = 200, after its stored `resetAt` (100 ms) has passed,
arms no timer at all: the live set stays empty, the fresh-id counter
never moves, and `pingCount` is incremented by an immediate fire
instead — refuting "setEnabled(W, true) when resetAt is non-null
immediately arms a timer for that same resetAt value". -/
theorem toggle_on_past_deadline_cex :
    stC6.primaryResetTime = some (JsNum.fin 100) ∧
    stC6.primaryEnabled = true ∧
    (setEnabledOp Window.primary true 200 true
        (setEnabledOp Window.primary false 60 true stC6)).live = [] ∧
    (setEnabledOp Window.primary true 200 true
        (setEnabledOp Window.primary false 60 true stC6)).nextId = 1 ∧
    (setEnabledOp Window.primary true 200 true
        (setEnabledOp Window.primary false 60 true stC6)).pingCount = 1 ∧
    (setEnabledOp Window.primary true 200 true
        (setEnabledOp Window.primary false 60 true stC6)).primaryResetTime =
      some (JsNum.fin 100) :=
  ⟨rfl, rfl, by with_unfolding_all rfl, by with_unfolding_all rfl,
    by with_unfolding_all rfl, by with_unfolding_all rfl⟩

/-- C6 (amended). For either window, with a positive stored deadline
`t` and a stored handle: disabling cancels the handle's timer, nulls
the handle and retains `resetAt`; re-enabling invokes the arming call
with the retained `resetAt`.  If `t` is still in the future the call
arms a fresh timer with delay exactly `t - now`, so the off-then-on
toggle restores firing at the original `resetAt` (armed-at plus delay
equals `t`).  If `t` has already passed, no timer is armed: with
credentials the handler fires immediately (incrementing `pingCount`
and setting `lastPingTime`), without credentials nothing else
happens. -/
theorem toggle_off_on_restores_deadline :
    ∀ (t now1 now2 : ℚ) (auth1 auth2 : Bool) (st : MState) (h : ℕ),
      0 ≤ now2 → 0 < t →
      (st.primaryResetTime = some (JsNum.fin t) → st.primaryTimer = some h →
        (setEnabledOp Window.primary false now1 auth1 st =
          { st with
            primaryEnabled := false
            primaryTimer := none
            live := cancelHandle h st.live }) ∧
        (now2 < t →
          (setEnabledOp Window.primary true now2 auth2
              (setEnabledOp Window.primary false now1 auth1 st) =
            { st with
              primaryEnabled := true
              primaryTimer := some st.nextId
              live := cancelHandle h st.live ++
                [⟨st.nextId, Window.primary, JsNum.fin (t - now2), now2⟩]
              nextId := st.nextId + 1 }) ∧
          now2 + (t - now2) = t) ∧
        (t ≤ now2 →
          (auth2 = true →
            setEnabledOp Window.primary true now2 auth2
                (setEnabledOp Window.primary false now1 auth1 st) =
              { st with
                primaryEnabled := true
                primaryTimer := none
                live := cancelHandle h st.live
                pingCount := st.pingCount + 1
                lastPingTime := some now2 }) ∧
          (auth2 = false →
            setEnabledOp Window.primary true now2 auth2
                (setEnabledOp Window.primary false now1 auth1 st) =
              { st with
                primaryEnabled := true
                primaryTimer := none
                live := cancelHandle h st.live }))) ∧
      (st.secondaryResetTime = some (JsNum.fin t) → st.secondaryTimer = some h →
        (setEnabledOp Window.secondary false now1 auth1 st =
          { st with
            secondaryEnabled := false
            secondaryTimer := none
            live := cancelHandle h st.live }) ∧
        (now2 < t →
          (setEnabledOp Window.secondary true now2 auth2
              (setEnabledOp Window.secondary false now1 auth1 st) =
            { st with
              secondaryEnabled := true
              secondaryTimer := some st.nextId
              live := cancelHandle h st.live ++
                [⟨st.nextId, Window.secondary, JsNum.fin (t - now2), now2⟩]
              nextId := st.nextId + 1 }) ∧
          now2 + (t - now2) = t) ∧
        (t ≤ now2 →
          (auth2 = true →
            setEnabledOp Window.secondary true now2 auth2
                (setEnabledOp Window.secondary false now1 auth1 st) =
              { st with
                secondaryEnabled := true
                secondaryTimer := none
                live := cancelHandle h st.live
                pingCount := st.pingCount + 1
                lastPingTime := some now2 }) ∧
          (auth2 = false →
            setEnabledOp Window.secondary true now2 auth2
                (setEnabledOp Window.secondary false now1 auth1 st) =
              { st with
                secondaryEnabled := true
                secondaryTimer := none
                live := cancelHandle h st.live }))) := by
  intro t now1 now2 auth1 auth2 st h hn2 hpt0
  have htt : jsTruthy (JsNum.fin t) = true := by
    simp only [jsTruthy, decide_eq_true_eq]
    intro h0
    rw [h0] at hpt0
    exact lt_irrefl 0 hpt0
  obtain ⟨pr, sr, pt, stm, lp, pc, ll, pe, se, lv, ni⟩ := st
  constructor
  · intro hrt hpt
    simp only at hrt hpt
    subst hrt
    subst hpt
    have hoff : setEnabledOp Window.primary false now1 auth1
        ⟨some (JsNum.fin t), sr, some h, stm, lp, pc, ll, pe, se, lv, ni⟩ =
        ⟨some (JsNum.fin t), sr, none, stm, lp, pc, ll, false, se, cancelHandle h lv, ni⟩ := by
      simp [setEnabledOp]
    refine ⟨hoff, ?_, ?_⟩
    · intro hfut
      have hdeq : jsMax0 (jsSub (JsNum.fin t) (JsNum.fin now2)) = JsNum.fin (t - now2) := by
        simp only [jsSub, jsNeg, jsAdd, jsMax0]
        rw [if_neg (by nlinarith), ← sub_eq_add_neg]
      have hdel : jsGtZero (JsNum.fin (t - now2)) = true := by
        simp only [jsGtZero, decide_eq_true_eq]
        nlinarith
      refine ⟨?_, by ring⟩
      rw [hoff]
      simp only [setEnabledOp]
      simp only [Bool.true_eq_false, if_false]
      simp only [schedulePing, htt, Bool.true_eq_false, if_false, getEnabled, if_true,
        setHandle, hdeq]
      simp [hdel]
    · intro hpast
      have hdeq : jsMax0 (jsSub (JsNum.fin t) (JsNum.fin now2)) = JsNum.fin 0 := by
        simp only [jsSub, jsNeg, jsAdd, jsMax0]
        rw [if_pos (by nlinarith)]
      have hdel : jsGtZero (JsNum.fin (0 : ℚ)) = false := by
        simp [jsGtZero]
      constructor
      · intro ha
        subst ha
        rw [hoff]
        simp only [setEnabledOp]
        simp only [Bool.true_eq_false, if_false]
        simp only [schedulePing, htt, Bool.true_eq_false, if_false, getEnabled, if_true, hdeq]
        simp [hdel]
      · intro ha
        subst ha
        rw [hoff]
        simp only [setEnabledOp]
        simp only [Bool.true_eq_false, if_false]
        simp only [schedulePing, htt, Bool.true_eq_false, if_false, getEnabled, if_true, hdeq]
        simp [hdel]
  · intro hrt hpt
    simp only at hrt hpt
    subst hrt
    subst hpt
    have hoff : setEnabledOp Window.secondary false now1 auth1
        ⟨pr, some (JsNum.fin t), pt, some h, lp, pc, ll, pe, se, lv, ni⟩ =
        ⟨pr, some (JsNum.fin t), pt, none, lp, pc, ll, pe, false, cancelHandle h lv, ni⟩ := by
      simp [setEnabledOp]
    refine ⟨hoff, ?_, ?_⟩
    · intro hfut
      have hdeq : jsMax0 (jsSub (JsNum.fin t) (JsNum.fin now2)) = JsNum.fin (t - now2) := by
        simp only [jsSub, jsNeg, jsAdd, jsMax0]
        rw [if_neg (by nlinarith), ← sub_eq_add_neg]
      have hdel : jsGtZero (JsNum.fin (t - now2)) = true := by
        simp only [jsGtZero, decide_eq_true_eq]
        nlinarith
      refine ⟨?_, by ring⟩
      rw [hoff]
      simp only [setEnabledOp]
      simp only [Bool.true_eq_false, if_false]
      simp only [schedulePing, htt, Bool.true_eq_false, if_false, getEnabled, if_true,
        setHandle, hdeq]
      simp [hdel]
    · intro hpast
      have hdeq : jsMax0 (jsSub (JsNum.fin t) (JsNum.fin now2)) = JsNum.fin 0 := by
        simp only [jsSub, jsNeg, jsAdd, jsMax0]
        rw [if_pos (by nlinarith)]
      have hdel : jsGtZero (JsNum.fin (0 : ℚ)) = false := by
        simp [jsGtZero]
      constructor
      · intro ha
        subst ha
        rw [hoff]
        simp only [setEnabledOp]
        simp only [Bool.true_eq_false, if_false]
        simp only [schedulePing, htt, Bool.true_eq_false, if_false, getEnabled, if_true, hdeq]
        simp [hdel]
      · intro ha
        subst ha
        rw [hoff]
        simp only [setEnabledOp]
        simp only [Bool.true_eq_false, if_false]
        simp only [schedulePing, htt, Bool.true_eq_false, if_false, getEnabled, if_true, hdeq]
        simp [hdel]

/-- State used by the C6 witness: pending reset at 500000 ms with a
live primary timer. -/
def stW6 : MState :=
  { initState with
    primaryResetTime := some (JsNum.fin 500000)
    primaryTimer := some 2
    live := [⟨2, Window.primary, JsNum.fin 400000, 100000⟩]
    nextId := 5 }

/-- Witness for C6's amended theorem: re-enabling before the deadline
re-arms for the original 500000 ms instant; re-enabling after it fires
immediately and arms nothing. -/
theorem toggle_off_on_restores_deadline_witness :
    (0 : ℚ) ≤ 200000 ∧ (0 : ℚ) < 500000 ∧
    stW6.primaryResetTime = some (JsNum.fin 500000) ∧
    stW6.primaryTimer = some 2 ∧
    (200000 : ℚ) < 500000 ∧
    (setEnabledOp Window.primary true 200000 true
        (setEnabledOp Window.primary false 150000 true stW6) =
      { stW6 with
        primaryEnabled := true
        primaryTimer := some 5
        live := cancelHandle 2 stW6.live ++
          [⟨5, Window.primary, JsNum.fin (500000 - 200000), 200000⟩]
        nextId := 6 }) ∧
    (500000 : ℚ) ≤ 600000 ∧
    (setEnabledOp Window.primary true 600000 true
        (setEnabledOp Window.primary false 150000 true stW6) =
      { stW6 with
        primaryEnabled := true
        primaryTimer := none
        live := cancelHandle 2 stW6.live
        pingCount := 1
        lastPingTime := some 600000 }) := by
  have h1 := (toggle_off_on_restores_deadline 500000 150000 200000 true true stW6 2
    (by norm_num) (by norm_num)).1 rfl rfl
  have h2 := (toggle_off_on_restores_deadline 500000 150000 600000 true true stW6 2
    (by norm_num) (by norm_num)).1 rfl rfl
  exact ⟨by norm_num, by norm_num, rfl, rfl, by norm_num, (h1.2.1 (by norm_num)).1,
    by norm_num, (h2.2.2 (by norm_num)).1 rfl⟩
